import Mathlib

/-!
A verification development for the bridged-type-resolution core of
`lib/SIL/Bridging.cpp`: the routines that decide how a native (Swift) type is
represented on the foreign (Clang/ObjC) side of a language boundary.

The embedding models canonical types as an inductive `Ty`, the calling
convention tags as `SILFunctionTypeRepresentation`, abstraction patterns as
`AbstractionPattern`, and the standard-library/registry lookups of the
surrounding `TypeConverter` (`getStringType`, `getNSStringType`, …, which may
report a declaration as unavailable) as a record of availability flags
`ASTContextInfo`.  The four routines of the source file are translated
directly:

* `getLoweredCBridgedType`   — the leaf (primitive/collection) mapper;
* `getLoweredBridgedType`    — the core type mapper (representation switch,
                               optional-unwrapping, purpose dispatch);
* `getBridgedInputType`      — the input bridger (tuple decomposition);
* `getBridgedResultType`     — the result bridger.

The C++ entry points report a diagnostic and abort fatally when a lookup
yields no bridged type; here they return `Except BridgeError Ty`, where the
single error constructor carries the type named by the one diagnostic emitted
before the abort.
-/

namespace SILBridging

/-- Calling-convention tags of `SILFunctionTypeRepresentation`; the same
enumeration also serves as the SIL representation carried by a function type's
`ExtInfo`. -/
inductive SILFunctionTypeRepresentation where
  | thick
  | block
  | thin
  | cFunctionPointer
  | method
  | objcMethod
  | witnessMethod
deriving DecidableEq, Repr

/-- Metatype representations (`MetatypeRepresentation`). -/
inductive MetatypeRepresentation where
  | thin
  | thick
  | objC
deriving DecidableEq, Repr

/-- The two optional flavors of `OptionalTypeKind` that
`getAnyOptionalObjectType` can report. -/
inductive OptionalTypeKind where
  | optional
  | implicitlyUnwrappedOptional
deriving DecidableEq, Repr

/-- A Clang type, as far as this core observes one: the only query made is
`clangTy->isBooleanType()`. -/
inductive ClangType where
  | boolClang
  | otherClang (id : Nat)
deriving DecidableEq, Repr

/-- Clang's `Type::isBooleanType`: true exactly for the boolean builtin. -/
def ClangType.isBooleanType : ClangType → Bool
  | .boolClang => true
  | .otherClang _ => false

mutual
/-- Canonical Swift types, restricted to the shapes this core inspects.
`stringTy`, `boolTy` are the native stdlib types; `objcBoolTy` is the imported
`ObjCBool` struct; `nsStringTy`, `nsArrayTy`, `nsDictionaryTy`, `nsSetTy` are
the foreign object classes; `arrayTy`, `dictionaryTy`, `setTy` are the native
generic collections (identified by their nominal declaration, as in
`t->getAnyNominal() == Context.getArrayDecl()`); `classTy`/`structTy`/
`protocolTy` stand for all other nominals; `tupleTy` carries labeled
elements. -/
inductive Ty where
  | stringTy
  | boolTy
  | objcBoolTy
  | nsStringTy
  | nsArrayTy
  | nsDictionaryTy
  | nsSetTy
  | classTy (id : Nat)
  | structTy (id : Nat)
  | protocolTy (id : Nat) (isObjCProtocol : Bool)
  | arrayTy (elt : Ty)
  | dictionaryTy (key value : Ty)
  | setTy (elt : Ty)
  | optionalTy (kind : OptionalTypeKind) (obj : Ty)
  | metatypeTy (mrep : Option MetatypeRepresentation) (inst : Ty)
  | existentialMetatypeTy (mrep : Option MetatypeRepresentation) (inst : Ty)
  | functionTy (input result : Ty) (frep : SILFunctionTypeRepresentation)
  | tupleTy (elts : TyList)
deriving DecidableEq, Repr
/-- An ordered list of tuple elements, each an optional label together with a
type (`TupleTypeElt`). -/
inductive TyList where
  | nil
  | cons (label : Option Nat) (t : Ty) (rest : TyList)
deriving DecidableEq, Repr
end

/-- Nominal type declarations, for the `getAnyNominal` identity tests. -/
inductive NominalDecl where
  | stringDecl
  | boolDecl
  | objcBoolDecl
  | nsStringDecl
  | nsArrayDecl
  | nsDictionaryDecl
  | nsSetDecl
  | arrayDecl
  | dictionaryDecl
  | setDecl
  | optionalDecl
  | implicitlyUnwrappedOptionalDecl
  | classDecl (id : Nat)
  | structDecl (id : Nat)
  | protocolDecl (id : Nat)
deriving DecidableEq, Repr

/-- `Type::getAnyNominal`: the nominal declaration of a type, when it has one.
Metatypes, function types and tuples are not nominal; `Optional<V>` is the
nominal `Optional` enum (never a collection declaration). -/
def Ty.getAnyNominal : Ty → Option NominalDecl
  | .stringTy => some .stringDecl
  | .boolTy => some .boolDecl
  | .objcBoolTy => some .objcBoolDecl
  | .nsStringTy => some .nsStringDecl
  | .nsArrayTy => some .nsArrayDecl
  | .nsDictionaryTy => some .nsDictionaryDecl
  | .nsSetTy => some .nsSetDecl
  | .classTy id => some (.classDecl id)
  | .structTy id => some (.structDecl id)
  | .protocolTy id _ => some (.protocolDecl id)
  | .arrayTy _ => some .arrayDecl
  | .dictionaryTy _ _ => some .dictionaryDecl
  | .setTy _ => some .setDecl
  | .optionalTy .optional _ => some .optionalDecl
  | .optionalTy .implicitlyUnwrappedOptional _ =>
      some .implicitlyUnwrappedOptionalDecl
  | .metatypeTy _ _ => none
  | .existentialMetatypeTy _ _ => none
  | .functionTy _ _ _ => none
  | .tupleTy _ => none

/-- `Type::getClassOrBoundGenericClass() != nullptr`: the foreign object
classes and `classTy` are classes; everything else is not. -/
def Ty.isClassOrBoundGenericClass : Ty → Bool
  | .nsStringTy => true
  | .nsArrayTy => true
  | .nsDictionaryTy => true
  | .nsSetTy => true
  | .classTy _ => true
  | _ => false

/-- `Type::isObjCExistentialType`. -/
def Ty.isObjCExistentialType : Ty → Bool
  | .protocolTy _ isObjCProtocol => isObjCProtocol
  | _ => false

/-- `Type::getAnyOptionalObjectType(optKind)`: looks through exactly one
optional layer, reporting the flavor and the wrapped type. -/
def Ty.getAnyOptionalObjectType : Ty → Option (OptionalTypeKind × Ty)
  | .optionalTy kind obj => some (kind, obj)
  | _ => none

/-- Abstraction patterns, as far as this core observes them: either no
concrete foreign origin is known, or the position carries a concrete Clang
type, or (for tuples) per-element patterns are available.  The per-element
indexing of a Clang pattern is not modelled: element lookups outside a
`tuplePattern` yield the no-origin pattern. -/
inductive AbstractionPattern where
  | opaquePattern
  | clangPattern (ct : ClangType)
  | tuplePattern (elts : List AbstractionPattern)

/-- `AbstractionPattern::isClangType`. -/
def AbstractionPattern.isClangType : AbstractionPattern → Bool
  | .clangPattern _ => true
  | _ => false

/-- The guarded lookup `pattern.isClangType() ? pattern.getClangType()
: nullptr` from `getLoweredBridgedType`. -/
def AbstractionPattern.getClangTypeOrNull : AbstractionPattern → Option ClangType
  | .clangPattern ct => some ct
  | _ => none

/-- `AbstractionPattern::getTupleElementType`. -/
def AbstractionPattern.getTupleElementType :
    AbstractionPattern → Nat → AbstractionPattern
  | .tuplePattern elts, i => elts.getD i .opaquePattern
  | _, _ => .opaquePattern

/-- Availability of the standard-library and Foundation declarations this core
looks up through the `TypeConverter`/`ASTContext` registry.  Each lookup may
report "not available" (the stdlib was built without that declaration). -/
structure ASTContextInfo where
  hasStringType : Bool
  hasNSStringType : Bool
  hasBoolType : Bool
  hasObjCBoolType : Bool
  hasArrayDecl : Bool
  hasNSArrayType : Bool
  hasDictionaryDecl : Bool
  hasNSDictionaryType : Bool
  hasSetDecl : Bool
  hasNSSetType : Bool
deriving DecidableEq, Repr

/-- `TypeConverter::getStringType`: the native `String` type, when present. -/
def getStringType (C : ASTContextInfo) : Option Ty :=
  if C.hasStringType then some .stringTy else none

/-- `TypeConverter::getNSStringType`. -/
def getNSStringType (C : ASTContextInfo) : Option Ty :=
  if C.hasNSStringType then some .nsStringTy else none

/-- `TypeConverter::getBoolType`. -/
def getBoolType (C : ASTContextInfo) : Option Ty :=
  if C.hasBoolType then some .boolTy else none

/-- `TypeConverter::getObjCBoolType`. -/
def getObjCBoolType (C : ASTContextInfo) : Option Ty :=
  if C.hasObjCBoolType then some .objcBoolTy else none

/-- `ASTContext::getArrayDecl`. -/
def getArrayDecl (C : ASTContextInfo) : Option NominalDecl :=
  if C.hasArrayDecl then some .arrayDecl else none

/-- `TypeConverter::getNSArrayType`. -/
def getNSArrayType (C : ASTContextInfo) : Option Ty :=
  if C.hasNSArrayType then some .nsArrayTy else none

/-- `ASTContext::getDictionaryDecl`. -/
def getDictionaryDecl (C : ASTContextInfo) : Option NominalDecl :=
  if C.hasDictionaryDecl then some .dictionaryDecl else none

/-- `TypeConverter::getNSDictionaryType`. -/
def getNSDictionaryType (C : ASTContextInfo) : Option Ty :=
  if C.hasNSDictionaryType then some .nsDictionaryTy else none

/-- `ASTContext::getSetDecl`. -/
def getSetDecl (C : ASTContextInfo) : Option NominalDecl :=
  if C.hasSetDecl then some .setDecl else none

/-- `TypeConverter::getNSSetType`. -/
def getNSSetType (C : ASTContextInfo) : Option Ty :=
  if C.hasNSSetType then some .nsSetTy else none

/-- The guarded equality test `nativeTy && t->isEqual(nativeTy)`: false when
the registry lookup came back empty. -/
def typeIsEqual (lookup : Option Ty) (t : Ty) : Bool :=
  match lookup with
  | some s => decide (t = s)
  | none => false

/-- The guarded test `clangTy && clangTy->isBooleanType()`. -/
def clangIsBooleanType : Option ClangType → Bool
  | some c => c.isBooleanType
  | none => false

/-- The guarded nominal test `decl && t->getAnyNominal() == decl`. -/
def nominalIs (lookup : Option NominalDecl) (t : Ty) : Bool :=
  match lookup with
  | some d => decide (t.getAnyNominal = some d)
  | none => false

/-- The shared wrapping step of the string/array/dictionary/set rules:
`if (bridgedCollectionsAreOptional && clangTy) bridgedTy =
OptionalType::get(bridgedTy); return bridgedTy;` (the single-argument
`OptionalType::get` builds the plain optional flavor). -/
def wrapIfCollectionsOptional (bridgedCollectionsAreOptional : Bool)
    (clangTy : Option ClangType) (bridgedTy : Option Ty) : Option Ty :=
  if bridgedCollectionsAreOptional && clangTy.isSome then
    bridgedTy.map (Ty.optionalTy .optional)
  else bridgedTy

/-- `TypeConverter::getLoweredCBridgedType` — the primitive/collection (leaf)
mapper, a sequence of first-match-wins rules over disjoint type shapes.  The
C++ falls through its early-return checks; since a metatype, existential
metatype or function type has no nominal declaration, the fall-through of each
of those shapes ends at the final `return t`, which the corresponding `match`
arm returns directly. -/
def getLoweredCBridgedType (C : ASTContextInfo) (t : Ty)
    (clangTy : Option ClangType) (bridgedCollectionsAreOptional : Bool) :
    Option Ty :=
  -- Bridge String back to NSString.
  if typeIsEqual (getStringType C) t then
    wrapIfCollectionsOptional bridgedCollectionsAreOptional clangTy
      (getNSStringType C)
  -- Bridge Bool back to ObjC bool, unless the original Clang type was _Bool.
  else if typeIsEqual (getBoolType C) t then
    (if clangIsBooleanType clangTy then some t else getObjCBoolType C)
  else
    match t with
    -- Class metatypes bridge to ObjC metatypes.
    | .metatypeTy _ inst =>
      if inst.isClassOrBoundGenericClass then
        some (.metatypeTy (some .objC) inst)
      else some t
    -- ObjC-compatible existential metatypes.
    | .existentialMetatypeTy _ inst =>
      if inst.isObjCExistentialType then
        some (.existentialMetatypeTy (some .objC) inst)
      else some t
    -- Functions with block/C/thin/method representations pass through;
    -- thick functions get bridged to blocks.
    | .functionTy input result frep =>
      (match frep with
       | .block | .cFunctionPointer | .thin | .method
       | .objcMethod | .witnessMethod => some t
       | .thick => some (.functionTy input result .block))
    | _ =>
      -- Array bridging.
      if nominalIs (getArrayDecl C) t then
        wrapIfCollectionsOptional bridgedCollectionsAreOptional clangTy
          (getNSArrayType C)
      -- Dictionary bridging.
      else if nominalIs (getDictionaryDecl C) t then
        wrapIfCollectionsOptional bridgedCollectionsAreOptional clangTy
          (getNSDictionaryType C)
      -- Set bridging.
      else if nominalIs (getSetDecl C) t then
        wrapIfCollectionsOptional bridgedCollectionsAreOptional clangTy
          (getNSSetType C)
      else some t

/-- `BridgedTypePurpose`. -/
inductive BridgedTypePurpose where
  | forArgument
  | forResult
  | forNonOptionalResult
deriving DecidableEq, Repr

/-- `TypeConverter::getLoweredBridgedType` — the core type mapper: native
representations pass through; foreign representations capture the Clang
origin hint, look through one optional layer (resolving the wrapped type with
a `false` collections-are-optional hint and re-wrapping in the same flavor),
and otherwise delegate to the leaf mapper with hint `purpose == ForResult`. -/
def getLoweredBridgedType (C : ASTContextInfo) (pattern : AbstractionPattern)
    (t : Ty) (rep : SILFunctionTypeRepresentation)
    (purpose : BridgedTypePurpose) : Option Ty :=
  match rep with
  | .thick | .thin | .method | .witnessMethod =>
    -- No bridging needed for native CCs.
    some t
  | .cFunctionPointer | .objcMethod | .block =>
    -- Map native types back to bridged types.
    let clangTy := pattern.getClangTypeOrNull
    -- Look through optional types.
    match t.getAnyOptionalObjectType with
    | some (optKind, valueTy) =>
      (getLoweredCBridgedType C valueTy clangTy false).map (Ty.optionalTy optKind)
    | none =>
      getLoweredCBridgedType C t clangTy
        (decide (purpose = BridgedTypePurpose.forResult))

/-- The single diagnostic (`diag::could_not_find_bridge_type`, naming the
offending type) emitted before the fatal abort in the entry points. -/
inductive BridgeError where
  | couldNotFindBridgeType (offending : Ty)
deriving DecidableEq, Repr

/-- The element loop of `getBridgedInputType`: bridge each tuple element with
its own slice of the pattern and purpose `ForArgument`, tracking whether any
element actually changed; the first element with no bridged type aborts with
a diagnostic naming that element's type. -/
def bridgeTupleElements (C : ASTContextInfo)
    (rep : SILFunctionTypeRepresentation) (pattern : AbstractionPattern) :
    Nat → TyList → Except BridgeError (TyList × Bool)
  | _, .nil => .ok (.nil, false)
  | i, .cons label eltTy rest =>
    match getLoweredBridgedType C (pattern.getTupleElementType i) eltTy rep
        .forArgument with
    | none => .error (.couldNotFindBridgeType eltTy)
    | some canBridged =>
      match bridgeTupleElements C rep pattern (i + 1) rest with
      | .error e => .error e
      | .ok (tail, changedRest) =>
        if canBridged = eltTy then .ok (.cons label eltTy tail, changedRest)
        else .ok (.cons label canBridged tail, true)

/-- `TypeConverter::getBridgedInputType` — the input bridger: a tuple input is
bridged element by element (returning the original tuple value when nothing
changed, and otherwise rebuilding it with the original labels and order); any
other input is handed to the core mapper with purpose `ForArgument`.  An
absent mapping becomes the one diagnostic followed by the fatal abort,
modelled as the `Except` error. -/
def getBridgedInputType (C : ASTContextInfo)
    (rep : SILFunctionTypeRepresentation) (pattern : AbstractionPattern)
    (input : Ty) : Except BridgeError Ty :=
  match input with
  | .tupleTy elts =>
    (match bridgeTupleElements C rep pattern 0 elts with
     | .error e => .error e
     | .ok (bridgedFields, changed) =>
       if changed then .ok (.tupleTy bridgedFields) else .ok input)
  | _ =>
    match getLoweredBridgedType C pattern input rep .forArgument with
    | none => .error (.couldNotFindBridgeType input)
    | some loweredBridgedType => .ok loweredBridgedType

/-- `TypeConverter::getBridgedResultType` — the result bridger: a single core
mapping of the whole result type, with purpose `ForNonOptionalResult` when
`suppressOptional` is set and `ForResult` otherwise. -/
def getBridgedResultType (C : ASTContextInfo)
    (rep : SILFunctionTypeRepresentation) (pattern : AbstractionPattern)
    (result : Ty) (suppressOptional : Bool) : Except BridgeError Ty :=
  match getLoweredBridgedType C pattern result rep
      (if suppressOptional then .forNonOptionalResult else .forResult) with
  | none => .error (.couldNotFindBridgeType result)
  | some loweredType => .ok loweredType

/-- The representation classifier of the specification: native conventions
never bridge, foreign conventions always proceed to bridging.  This names the
grouping of the `switch` in `getLoweredBridgedType`. -/
def needsBridging : SILFunctionTypeRepresentation → Bool
  | .thick | .thin | .method | .witnessMethod => false
  | .cFunctionPointer | .objcMethod | .block => true

/-- A registry with every standard-library and Foundation declaration
available, for concrete evaluations. -/
def fullContext : ASTContextInfo :=
  ⟨true, true, true, true, true, true, true, true, true, true⟩

/-- The number of elements of a tuple element list. -/
def TyList.length : TyList → Nat
  | .nil => 0
  | .cons _ _ rest => rest.length + 1

/-- The `j`-th (label, type) pair of a tuple element list, when present. -/
def TyList.get? : TyList → Nat → Option (Option Nat × Ty)
  | .nil, _ => none
  | .cons label t _, 0 => some (label, t)
  | .cons _ _ rest, j + 1 => rest.get? j

theorem TyList.get?_eq_none_iff :
    ∀ (l : TyList) (j : Nat), l.get? j = none ↔ l.length ≤ j
  | .nil, j => by simp [TyList.get?, TyList.length]
  | .cons label t rest, 0 => by simp [TyList.get?, TyList.length]
  | .cons label t rest, j + 1 => by
    simp only [TyList.get?, TyList.length]
    rw [TyList.get?_eq_none_iff rest j]
    omega

theorem TyList.ext_of_get? :
    ∀ (l₁ l₂ : TyList), (∀ j, l₁.get? j = l₂.get? j) → l₁ = l₂
  | .nil, .nil, _ => rfl
  | .nil, .cons label t rest, h => by
    have h0 := h 0
    simp [TyList.get?] at h0
  | .cons label t rest, .nil, h => by
    have h0 := h 0
    simp [TyList.get?] at h0
  | .cons label₁ t₁ rest₁, .cons label₂ t₂ rest₂, h => by
    have h0 := h 0
    simp only [TyList.get?, Option.some.injEq, Prod.mk.injEq] at h0
    have hrest := TyList.ext_of_get? rest₁ rest₂ (fun j => h (j + 1))
    rw [h0.1, h0.2, hrest]

theorem typeIsEqual_getString (C : ASTContextInfo) (t : Ty) :
    typeIsEqual (getStringType C) t
      = (C.hasStringType && decide (t = Ty.stringTy)) := by
  unfold getStringType typeIsEqual
  by_cases h : C.hasStringType <;> simp [h]

theorem typeIsEqual_getBool (C : ASTContextInfo) (t : Ty) :
    typeIsEqual (getBoolType C) t
      = (C.hasBoolType && decide (t = Ty.boolTy)) := by
  unfold getBoolType typeIsEqual
  by_cases h : C.hasBoolType <;> simp [h]

theorem nominalIs_getArrayDecl (C : ASTContextInfo) (t : Ty) :
    nominalIs (getArrayDecl C) t
      = (C.hasArrayDecl && decide (t.getAnyNominal = some NominalDecl.arrayDecl)) := by
  unfold getArrayDecl nominalIs
  by_cases h : C.hasArrayDecl <;> simp [h]

theorem nominalIs_getDictionaryDecl (C : ASTContextInfo) (t : Ty) :
    nominalIs (getDictionaryDecl C) t
      = (C.hasDictionaryDecl
          && decide (t.getAnyNominal = some NominalDecl.dictionaryDecl)) := by
  unfold getDictionaryDecl nominalIs
  by_cases h : C.hasDictionaryDecl <;> simp [h]

theorem nominalIs_getSetDecl (C : ASTContextInfo) (t : Ty) :
    nominalIs (getSetDecl C) t
      = (C.hasSetDecl && decide (t.getAnyNominal = some NominalDecl.setDecl)) := by
  unfold getSetDecl nominalIs
  by_cases h : C.hasSetDecl <;> simp [h]

theorem getNSStringType_shape (C : ASTContextInfo) (B : Ty)
    (h : getNSStringType C = some B) : B = Ty.nsStringTy := by
  unfold getNSStringType at h
  split at h <;> simp_all

theorem getNSArrayType_shape (C : ASTContextInfo) (B : Ty)
    (h : getNSArrayType C = some B) : B = Ty.nsArrayTy := by
  unfold getNSArrayType at h
  split at h <;> simp_all

theorem getNSDictionaryType_shape (C : ASTContextInfo) (B : Ty)
    (h : getNSDictionaryType C = some B) : B = Ty.nsDictionaryTy := by
  unfold getNSDictionaryType at h
  split at h <;> simp_all

theorem getNSSetType_shape (C : ASTContextInfo) (B : Ty)
    (h : getNSSetType C = some B) : B = Ty.nsSetTy := by
  unfold getNSSetType at h
  split at h <;> simp_all

theorem getObjCBoolType_shape (C : ASTContextInfo) (B : Ty)
    (h : getObjCBoolType C = some B) : B = Ty.objcBoolTy := by
  unfold getObjCBoolType at h
  split at h <;> simp_all

theorem wrapIfCollectionsOptional_shape (b : Bool) (ct : Option ClangType)
    (o : Option Ty) (t' : Ty) (h : wrapIfCollectionsOptional b ct o = some t') :
    ∃ B, o = some B
      ∧ (t' = B ∨ ((b && ct.isSome) = true ∧ t' = Ty.optionalTy .optional B)) := by
  unfold wrapIfCollectionsOptional at h
  by_cases hc : (b && ct.isSome) = true
  · rw [if_pos hc] at h
    rw [Option.map_eq_some'] at h
    obtain ⟨B, hB, hmap⟩ := h
    exact ⟨B, hB, Or.inr ⟨hc, hmap.symm⟩⟩
  · rw [if_neg hc] at h
    exact ⟨t', h, Or.inl rfl⟩

theorem getLoweredBridgedType_native (C : ASTContextInfo)
    (pattern : AbstractionPattern) (t : Ty)
    (rep : SILFunctionTypeRepresentation) (purpose : BridgedTypePurpose)
    (h : needsBridging rep = false) :
    getLoweredBridgedType C pattern t rep purpose = some t := by
  cases rep <;> first | rfl | simp [needsBridging] at h

theorem getLoweredBridgedType_foreign_optional (C : ASTContextInfo)
    (pattern : AbstractionPattern) (k : OptionalTypeKind) (V : Ty)
    (rep : SILFunctionTypeRepresentation) (purpose : BridgedTypePurpose)
    (h : needsBridging rep = true) :
    getLoweredBridgedType C pattern (.optionalTy k V) rep purpose
      = (getLoweredCBridgedType C V pattern.getClangTypeOrNull false).map
          (Ty.optionalTy k) := by
  cases rep <;> first | rfl | simp [needsBridging] at h

theorem getLoweredBridgedType_foreign_nonOptional (C : ASTContextInfo)
    (pattern : AbstractionPattern) (t : Ty)
    (rep : SILFunctionTypeRepresentation) (purpose : BridgedTypePurpose)
    (h : needsBridging rep = true) (hopt : t.getAnyOptionalObjectType = none) :
    getLoweredBridgedType C pattern t rep purpose
      = getLoweredCBridgedType C t pattern.getClangTypeOrNull
          (decide (purpose = BridgedTypePurpose.forResult)) := by
  cases rep with
  | thick | thin | method | witnessMethod => simp [needsBridging] at h
  | cFunctionPointer | objcMethod | block =>
    unfold getLoweredBridgedType
    rw [hopt]

theorem getAnyOptionalObjectType_eq_some (t : Ty) (k : OptionalTypeKind)
    (V : Ty) : t.getAnyOptionalObjectType = some (k, V) ↔ t = .optionalTy k V := by
  cases t <;> simp only [Ty.getAnyOptionalObjectType] <;>
    simp [Ty.optionalTy.injEq]

theorem leaf_fix_nsString (C : ASTContextInfo) (ct : Option ClangType)
    (b : Bool) : getLoweredCBridgedType C Ty.nsStringTy ct b = some Ty.nsStringTy := by
  simp [getLoweredCBridgedType, typeIsEqual_getString, typeIsEqual_getBool,
    nominalIs_getArrayDecl, nominalIs_getDictionaryDecl, nominalIs_getSetDecl,
    Ty.getAnyNominal]

theorem leaf_fix_nsArray (C : ASTContextInfo) (ct : Option ClangType)
    (b : Bool) : getLoweredCBridgedType C Ty.nsArrayTy ct b = some Ty.nsArrayTy := by
  simp [getLoweredCBridgedType, typeIsEqual_getString, typeIsEqual_getBool,
    nominalIs_getArrayDecl, nominalIs_getDictionaryDecl, nominalIs_getSetDecl,
    Ty.getAnyNominal]

theorem leaf_fix_nsDictionary (C : ASTContextInfo) (ct : Option ClangType)
    (b : Bool) :
    getLoweredCBridgedType C Ty.nsDictionaryTy ct b = some Ty.nsDictionaryTy := by
  simp [getLoweredCBridgedType, typeIsEqual_getString, typeIsEqual_getBool,
    nominalIs_getArrayDecl, nominalIs_getDictionaryDecl, nominalIs_getSetDecl,
    Ty.getAnyNominal]

theorem leaf_fix_nsSet (C : ASTContextInfo) (ct : Option ClangType)
    (b : Bool) : getLoweredCBridgedType C Ty.nsSetTy ct b = some Ty.nsSetTy := by
  simp [getLoweredCBridgedType, typeIsEqual_getString, typeIsEqual_getBool,
    nominalIs_getArrayDecl, nominalIs_getDictionaryDecl, nominalIs_getSetDecl,
    Ty.getAnyNominal]

theorem leaf_fix_objcBool (C : ASTContextInfo) (ct : Option ClangType)
    (b : Bool) : getLoweredCBridgedType C Ty.objcBoolTy ct b = some Ty.objcBoolTy := by
  simp [getLoweredCBridgedType, typeIsEqual_getString, typeIsEqual_getBool,
    nominalIs_getArrayDecl, nominalIs_getDictionaryDecl, nominalIs_getSetDecl,
    Ty.getAnyNominal]

theorem leaf_fix_metatypeObjC (C : ASTContextInfo) (ct : Option ClangType)
    (b : Bool) (inst : Ty) (h : inst.isClassOrBoundGenericClass = true) :
    getLoweredCBridgedType C (.metatypeTy (some .objC) inst) ct b
      = some (.metatypeTy (some .objC) inst) := by
  simp [getLoweredCBridgedType, typeIsEqual_getString, typeIsEqual_getBool, h]

theorem leaf_fix_existentialMetatypeObjC (C : ASTContextInfo)
    (ct : Option ClangType) (b : Bool) (inst : Ty)
    (h : inst.isObjCExistentialType = true) :
    getLoweredCBridgedType C (.existentialMetatypeTy (some .objC) inst) ct b
      = some (.existentialMetatypeTy (some .objC) inst) := by
  simp [getLoweredCBridgedType, typeIsEqual_getString, typeIsEqual_getBool, h]

theorem leaf_fix_functionBlock (C : ASTContextInfo) (ct : Option ClangType)
    (b : Bool) (input result : Ty) :
    getLoweredCBridgedType C (.functionTy input result .block) ct b
      = some (.functionTy input result .block) := by
  simp [getLoweredCBridgedType, typeIsEqual_getString, typeIsEqual_getBool]

theorem leaf_fix_optional (C : ASTContextInfo) (ct : Option ClangType)
    (b : Bool) (k : OptionalTypeKind) (V : Ty) :
    getLoweredCBridgedType C (.optionalTy k V) ct b = some (.optionalTy k V) := by
  cases k <;>
    simp [getLoweredCBridgedType, typeIsEqual_getString, typeIsEqual_getBool,
      nominalIs_getArrayDecl, nominalIs_getDictionaryDecl, nominalIs_getSetDecl,
      Ty.getAnyNominal]

theorem leaf_fix_tuple (C : ASTContextInfo) (ct : Option ClangType)
    (b : Bool) (elts : TyList) :
    getLoweredCBridgedType C (.tupleTy elts) ct b = some (.tupleTy elts) := by
  simp [getLoweredCBridgedType, typeIsEqual_getString, typeIsEqual_getBool,
    nominalIs_getArrayDecl, nominalIs_getDictionaryDecl, nominalIs_getSetDecl,
    Ty.getAnyNominal]

theorem leaf_output_shape (C : ASTContextInfo) (ct : Option ClangType) (b : Bool)
    (t t' : Ty) (h : getLoweredCBridgedType C t ct b = some t') :
    t' = t
    ∨ (∃ B, (B = Ty.nsStringTy ∨ B = Ty.nsArrayTy ∨ B = Ty.nsDictionaryTy
            ∨ B = Ty.nsSetTy)
        ∧ (t' = B ∨ ((b && ct.isSome) = true ∧ t' = Ty.optionalTy .optional B)))
    ∨ t' = Ty.objcBoolTy
    ∨ (∃ inst, inst.isClassOrBoundGenericClass = true
        ∧ t' = Ty.metatypeTy (some .objC) inst)
    ∨ (∃ inst, inst.isObjCExistentialType = true
        ∧ t' = Ty.existentialMetatypeTy (some .objC) inst)
    ∨ (∃ fnIn fnOut, t' = Ty.functionTy fnIn fnOut .block) := by
  cases t with
  | stringTy =>
    by_cases hS : C.hasStringType
    · simp only [getLoweredCBridgedType, typeIsEqual_getString, hS] at h
      simp at h
      obtain ⟨B, hB, hcase⟩ := wrapIfCollectionsOptional_shape _ _ _ _ h
      have hBe := getNSStringType_shape C B hB
      subst hBe
      exact Or.inr (Or.inl ⟨_, Or.inl rfl, hcase⟩)
    · simp [getLoweredCBridgedType, typeIsEqual_getString, typeIsEqual_getBool,
        nominalIs_getArrayDecl, nominalIs_getDictionaryDecl, nominalIs_getSetDecl,
        Ty.getAnyNominal, hS] at h
      exact Or.inl h.symm
  | boolTy =>
    by_cases hB : C.hasBoolType
    · by_cases hc : clangIsBooleanType ct
      · simp [getLoweredCBridgedType, typeIsEqual_getString, typeIsEqual_getBool,
          hB, hc] at h
        exact Or.inl h.symm
      · simp [getLoweredCBridgedType, typeIsEqual_getString, typeIsEqual_getBool,
          hB, hc] at h
        exact Or.inr (Or.inr (Or.inl (getObjCBoolType_shape C t' h)))
    · simp [getLoweredCBridgedType, typeIsEqual_getString, typeIsEqual_getBool,
        nominalIs_getArrayDecl, nominalIs_getDictionaryDecl, nominalIs_getSetDecl,
        Ty.getAnyNominal, hB] at h
      exact Or.inl h.symm
  | objcBoolTy =>
    rw [leaf_fix_objcBool] at h
    simp at h
    exact Or.inl h.symm
  | nsStringTy =>
    rw [leaf_fix_nsString] at h
    simp at h
    exact Or.inl h.symm
  | nsArrayTy =>
    rw [leaf_fix_nsArray] at h
    simp at h
    exact Or.inl h.symm
  | nsDictionaryTy =>
    rw [leaf_fix_nsDictionary] at h
    simp at h
    exact Or.inl h.symm
  | nsSetTy =>
    rw [leaf_fix_nsSet] at h
    simp at h
    exact Or.inl h.symm
  | classTy id =>
    simp [getLoweredCBridgedType, typeIsEqual_getString, typeIsEqual_getBool,
      nominalIs_getArrayDecl, nominalIs_getDictionaryDecl, nominalIs_getSetDecl,
      Ty.getAnyNominal] at h
    exact Or.inl h.symm
  | structTy id =>
    simp [getLoweredCBridgedType, typeIsEqual_getString, typeIsEqual_getBool,
      nominalIs_getArrayDecl, nominalIs_getDictionaryDecl, nominalIs_getSetDecl,
      Ty.getAnyNominal] at h
    exact Or.inl h.symm
  | protocolTy id isP =>
    simp [getLoweredCBridgedType, typeIsEqual_getString, typeIsEqual_getBool,
      nominalIs_getArrayDecl, nominalIs_getDictionaryDecl, nominalIs_getSetDecl,
      Ty.getAnyNominal] at h
    exact Or.inl h.symm
  | arrayTy elt =>
    by_cases hA : C.hasArrayDecl
    · simp only [getLoweredCBridgedType, typeIsEqual_getString, typeIsEqual_getBool,
        nominalIs_getArrayDecl, Ty.getAnyNominal, hA] at h
      simp at h
      obtain ⟨B, hB, hcase⟩ := wrapIfCollectionsOptional_shape _ _ _ _ h
      have hBe := getNSArrayType_shape C B hB
      subst hBe
      exact Or.inr (Or.inl ⟨_, Or.inr (Or.inl rfl), hcase⟩)
    · simp [getLoweredCBridgedType, typeIsEqual_getString, typeIsEqual_getBool,
        nominalIs_getArrayDecl, nominalIs_getDictionaryDecl, nominalIs_getSetDecl,
        Ty.getAnyNominal, hA] at h
      exact Or.inl h.symm
  | dictionaryTy k v =>
    by_cases hD : C.hasDictionaryDecl
    · simp only [getLoweredCBridgedType, typeIsEqual_getString, typeIsEqual_getBool,
        nominalIs_getArrayDecl, nominalIs_getDictionaryDecl, Ty.getAnyNominal, hD] at h
      simp at h
      obtain ⟨B, hB, hcase⟩ := wrapIfCollectionsOptional_shape _ _ _ _ h
      have hBe := getNSDictionaryType_shape C B hB
      subst hBe
      exact Or.inr (Or.inl ⟨_, Or.inr (Or.inr (Or.inl rfl)), hcase⟩)
    · simp [getLoweredCBridgedType, typeIsEqual_getString, typeIsEqual_getBool,
        nominalIs_getArrayDecl, nominalIs_getDictionaryDecl, nominalIs_getSetDecl,
        Ty.getAnyNominal, hD] at h
      exact Or.inl h.symm
  | setTy elt =>
    by_cases hS : C.hasSetDecl
    · simp only [getLoweredCBridgedType, typeIsEqual_getString, typeIsEqual_getBool,
        nominalIs_getArrayDecl, nominalIs_getDictionaryDecl, nominalIs_getSetDecl,
        Ty.getAnyNominal, hS] at h
      simp at h
      obtain ⟨B, hB, hcase⟩ := wrapIfCollectionsOptional_shape _ _ _ _ h
      have hBe := getNSSetType_shape C B hB
      subst hBe
      exact Or.inr (Or.inl ⟨_, Or.inr (Or.inr (Or.inr rfl)), hcase⟩)
    · simp [getLoweredCBridgedType, typeIsEqual_getString, typeIsEqual_getBool,
        nominalIs_getArrayDecl, nominalIs_getDictionaryDecl, nominalIs_getSetDecl,
        Ty.getAnyNominal, hS] at h
      exact Or.inl h.symm
  | optionalTy k obj =>
    rw [leaf_fix_optional] at h
    simp at h
    exact Or.inl h.symm
  | metatypeTy mrep inst =>
    by_cases hc : inst.isClassOrBoundGenericClass
    · simp [getLoweredCBridgedType, typeIsEqual_getString, typeIsEqual_getBool,
        hc] at h
      exact Or.inr (Or.inr (Or.inr (Or.inl ⟨inst, hc, h.symm⟩)))
    · simp [getLoweredCBridgedType, typeIsEqual_getString, typeIsEqual_getBool,
        nominalIs_getArrayDecl, nominalIs_getDictionaryDecl, nominalIs_getSetDecl,
        Ty.getAnyNominal, hc] at h
      exact Or.inl h.symm
  | existentialMetatypeTy mrep inst =>
    by_cases hc : inst.isObjCExistentialType
    · simp [getLoweredCBridgedType, typeIsEqual_getString, typeIsEqual_getBool,
        hc] at h
      exact Or.inr (Or.inr (Or.inr (Or.inr (Or.inl ⟨inst, hc, h.symm⟩))))
    · simp [getLoweredCBridgedType, typeIsEqual_getString, typeIsEqual_getBool,
        nominalIs_getArrayDecl, nominalIs_getDictionaryDecl, nominalIs_getSetDecl,
        Ty.getAnyNominal, hc] at h
      exact Or.inl h.symm
  | functionTy fnIn fnOut frep =>
    cases frep <;>
      simp [getLoweredCBridgedType, typeIsEqual_getString, typeIsEqual_getBool] at h <;>
      first
        | exact Or.inr (Or.inr (Or.inr (Or.inr (Or.inr ⟨fnIn, fnOut, h.symm⟩))))
        | exact Or.inl h.symm
  | tupleTy elts =>
    rw [leaf_fix_tuple] at h
    simp at h
    exact Or.inl h.symm

theorem bridgeTupleElements_native (C : ASTContextInfo)
    (rep : SILFunctionTypeRepresentation) (pattern : AbstractionPattern)
    (h : needsBridging rep = false) :
    ∀ (elts : TyList) (i : Nat),
      bridgeTupleElements C rep pattern i elts = Except.ok (elts, false)
  | .nil, _ => rfl
  | .cons label t rest, i => by
    simp [bridgeTupleElements, getLoweredBridgedType_native C _ t rep .forArgument h,
      bridgeTupleElements_native C rep pattern h rest (i + 1)]

/-- C4: under every native representation (thick, thin, method,
witness-method), `getBridgedInputType` and `getBridgedResultType` return the
input type unchanged, whatever its shape, and never fail. -/
theorem native_pass_through (C : ASTContextInfo)
    (rep : SILFunctionTypeRepresentation)
    (patternIn patternRes : AbstractionPattern) (tIn tRes : Ty)
    (suppressOptional : Bool) (hrep : needsBridging rep = false) :
    getBridgedInputType C rep patternIn tIn = Except.ok tIn
    ∧ getBridgedResultType C rep patternRes tRes suppressOptional
        = Except.ok tRes := by
  constructor
  · cases tIn <;>
      simp [getBridgedInputType,
        getLoweredBridgedType_native C patternIn _ rep .forArgument hrep,
        bridgeTupleElements_native C rep patternIn hrep]
  · simp [getBridgedResultType, getLoweredBridgedType_native C patternRes tRes rep _ hrep]

theorem native_pass_through_witness :
    needsBridging SILFunctionTypeRepresentation.thick = false
    ∧ (getBridgedInputType fullContext SILFunctionTypeRepresentation.thick
          AbstractionPattern.opaquePattern
          (Ty.tupleTy (TyList.cons none (Ty.arrayTy Ty.boolTy) TyList.nil))
        = Except.ok (Ty.tupleTy (TyList.cons none (Ty.arrayTy Ty.boolTy) TyList.nil))
      ∧ getBridgedResultType fullContext SILFunctionTypeRepresentation.thick
          AbstractionPattern.opaquePattern Ty.stringTy false
        = Except.ok Ty.stringTy) :=
  ⟨rfl, native_pass_through fullContext SILFunctionTypeRepresentation.thick
    AbstractionPattern.opaquePattern AbstractionPattern.opaquePattern
    (Ty.tupleTy (TyList.cons none (Ty.arrayTy Ty.boolTy) TyList.nil))
    Ty.stringTy false rfl⟩

/-- C5: under every foreign representation (with the registry's boolean
declarations available), the native boolean type passes through unchanged
exactly when the foreign-origin hint is present and is itself a genuine
primitive boolean Clang type, and is mapped to the foreign `ObjCBool` type in
every other case — hint absent, or hint present but not a primitive
boolean. -/
theorem boolean_special_case (C : ASTContextInfo)
    (pattern : AbstractionPattern) (rep : SILFunctionTypeRepresentation)
    (purpose : BridgedTypePurpose) (hrep : needsBridging rep = true)
    (hBool : C.hasBoolType = true) (hObjC : C.hasObjCBoolType = true) :
    getLoweredBridgedType C pattern Ty.boolTy rep purpose
      = if clangIsBooleanType pattern.getClangTypeOrNull then some Ty.boolTy
        else some Ty.objcBoolTy := by
  rw [getLoweredBridgedType_foreign_nonOptional C pattern Ty.boolTy rep purpose hrep rfl]
  by_cases hc : clangIsBooleanType pattern.getClangTypeOrNull <;>
    simp [getLoweredCBridgedType, typeIsEqual_getString, typeIsEqual_getBool,
      hBool, hObjC, hc, getObjCBoolType]

theorem boolean_special_case_witness :
    (needsBridging SILFunctionTypeRepresentation.cFunctionPointer = true
      ∧ fullContext.hasBoolType = true ∧ fullContext.hasObjCBoolType = true)
    ∧ getLoweredBridgedType fullContext
        (AbstractionPattern.clangPattern ClangType.boolClang) Ty.boolTy
        SILFunctionTypeRepresentation.cFunctionPointer
        BridgedTypePurpose.forArgument
      = if clangIsBooleanType
            (AbstractionPattern.clangPattern ClangType.boolClang).getClangTypeOrNull
        then some Ty.boolTy else some Ty.objcBoolTy :=
  ⟨⟨rfl, rfl, rfl⟩, boolean_special_case fullContext
    (AbstractionPattern.clangPattern ClangType.boolClang)
    SILFunctionTypeRepresentation.cFunctionPointer
    BridgedTypePurpose.forArgument rfl rfl rfl⟩

/-- C6: under every foreign representation, a function type whose own internal
representation is block, C-function-pointer, thin, method, objc-method or
witness-method passes through unchanged, and a thick function type is
rewritten to the block representation with its input and result types left
unmodified; the same holds at the leaf mapper for every hint. -/
theorem function_type_rule (C : ASTContextInfo) (ct : Option ClangType)
    (b : Bool) (pattern : AbstractionPattern)
    (rep : SILFunctionTypeRepresentation) (purpose : BridgedTypePurpose)
    (fnIn fnOut : Ty) (frep : SILFunctionTypeRepresentation)
    (hrep : needsBridging rep = true) :
    getLoweredCBridgedType C (.functionTy fnIn fnOut frep) ct b
      = some (.functionTy fnIn fnOut (if frep = .thick then .block else frep))
    ∧ getLoweredBridgedType C pattern (.functionTy fnIn fnOut frep) rep purpose
      = some (.functionTy fnIn fnOut (if frep = .thick then .block else frep)) := by
  have hleaf : ∀ (ct' : Option ClangType) (b' : Bool),
      getLoweredCBridgedType C (.functionTy fnIn fnOut frep) ct' b'
        = some (.functionTy fnIn fnOut (if frep = .thick then .block else frep)) := by
    intro ct' b'
    cases frep <;>
      simp [getLoweredCBridgedType, typeIsEqual_getString, typeIsEqual_getBool]
  refine ⟨hleaf ct b, ?_⟩
  rw [getLoweredBridgedType_foreign_nonOptional C pattern
    (Ty.functionTy fnIn fnOut frep) rep purpose hrep rfl]
  exact hleaf _ _

theorem function_type_rule_witness :
    needsBridging SILFunctionTypeRepresentation.objcMethod = true
    ∧ (getLoweredCBridgedType fullContext
          (Ty.functionTy Ty.boolTy Ty.stringTy SILFunctionTypeRepresentation.thick)
          none false
        = some (Ty.functionTy Ty.boolTy Ty.stringTy
            (if SILFunctionTypeRepresentation.thick = SILFunctionTypeRepresentation.thick
             then SILFunctionTypeRepresentation.block
             else SILFunctionTypeRepresentation.thick))
      ∧ getLoweredBridgedType fullContext AbstractionPattern.opaquePattern
          (Ty.functionTy Ty.boolTy Ty.stringTy SILFunctionTypeRepresentation.thick)
          SILFunctionTypeRepresentation.objcMethod BridgedTypePurpose.forResult
        = some (Ty.functionTy Ty.boolTy Ty.stringTy
            (if SILFunctionTypeRepresentation.thick = SILFunctionTypeRepresentation.thick
             then SILFunctionTypeRepresentation.block
             else SILFunctionTypeRepresentation.thick))) :=
  ⟨rfl, function_type_rule fullContext none false AbstractionPattern.opaquePattern
    SILFunctionTypeRepresentation.objcMethod BridgedTypePurpose.forResult
    Ty.boolTy Ty.stringTy SILFunctionTypeRepresentation.thick rfl⟩

/-- C10: optional unwrapping looks through exactly one layer and hands the
wrapped type to the leaf mapper, which has no rule for optional types; hence a
doubly-nested optional is returned unchanged under every representation and
purpose, even when the innermost type is a bridgeable string or collection
type. -/
theorem double_optional_unchanged (C : ASTContextInfo)
    (pattern : AbstractionPattern) (rep : SILFunctionTypeRepresentation)
    (purpose : BridgedTypePurpose) (k k₂ : OptionalTypeKind) (V : Ty) :
    getLoweredBridgedType C pattern (.optionalTy k (.optionalTy k₂ V)) rep purpose
      = some (.optionalTy k (.optionalTy k₂ V)) := by
  by_cases hrep : needsBridging rep = true
  · rw [getLoweredBridgedType_foreign_optional C pattern k _ rep purpose hrep,
      leaf_fix_optional]
    rfl
  · exact getLoweredBridgedType_native C pattern _ rep purpose (by
      revert hrep; cases rep <;> simp [needsBridging])

/-- C1 counterexample: for purpose = argument, a bare native string type under
a foreign representation with a concrete foreign-origin hint is bridged to
the plain foreign string-object type, not to an optional-wrapped one — the
delegation hint is `purpose == result`, not `purpose != non-optional-result`. -/
theorem string_argument_hint_counterexample :
    getLoweredBridgedType fullContext
        (AbstractionPattern.clangPattern (ClangType.otherClang 0)) Ty.stringTy
        SILFunctionTypeRepresentation.objcMethod BridgedTypePurpose.forArgument
      = some Ty.nsStringTy
    ∧ getLoweredBridgedType fullContext
        (AbstractionPattern.clangPattern (ClangType.otherClang 0)) Ty.stringTy
        SILFunctionTypeRepresentation.objcMethod BridgedTypePurpose.forArgument
      ≠ some (Ty.optionalTy OptionalTypeKind.optional Ty.nsStringTy) := by
  refine ⟨rfl, ?_⟩
  decide

/-- C1 as amended: for a non-optional type under a foreign representation,
the Core Type Mapper delegates to the Primitive/Collection Mapper with a
collections-are-optional hint equal to `purpose == result` (not
`purpose != non-optional-result`); consequently, for purpose = argument, a
bare native string type with a concrete foreign-origin hint present is
bridged to the foreign string-object type without optional wrapping. -/
theorem coreMapper_hint_is_forResult (C : ASTContextInfo)
    (pattern : AbstractionPattern) (t : Ty)
    (rep : SILFunctionTypeRepresentation) (purpose : BridgedTypePurpose)
    (hrep : needsBridging rep = true)
    (hopt : t.getAnyOptionalObjectType = none) :
    getLoweredBridgedType C pattern t rep purpose
      = getLoweredCBridgedType C t pattern.getClangTypeOrNull
          (decide (purpose = BridgedTypePurpose.forResult))
    ∧ (C.hasStringType = true → C.hasNSStringType = true →
        purpose = BridgedTypePurpose.forArgument →
        getLoweredBridgedType C pattern Ty.stringTy rep purpose
          = some Ty.nsStringTy) := by
  refine ⟨getLoweredBridgedType_foreign_nonOptional C pattern t rep purpose hrep hopt, ?_⟩
  intro hS hNS hpurp
  subst hpurp
  rw [getLoweredBridgedType_foreign_nonOptional C pattern Ty.stringTy rep
    BridgedTypePurpose.forArgument hrep rfl]
  simp [getLoweredCBridgedType, typeIsEqual_getString, hS,
    wrapIfCollectionsOptional, getNSStringType, hNS]

theorem coreMapper_hint_is_forResult_witness :
    (needsBridging SILFunctionTypeRepresentation.objcMethod = true
      ∧ Ty.stringTy.getAnyOptionalObjectType = none)
    ∧ (getLoweredBridgedType fullContext
          (AbstractionPattern.clangPattern (ClangType.otherClang 0)) Ty.stringTy
          SILFunctionTypeRepresentation.objcMethod BridgedTypePurpose.forArgument
        = getLoweredCBridgedType fullContext Ty.stringTy
            (AbstractionPattern.clangPattern (ClangType.otherClang 0)).getClangTypeOrNull
            (decide (BridgedTypePurpose.forArgument = BridgedTypePurpose.forResult))
      ∧ (fullContext.hasStringType = true → fullContext.hasNSStringType = true →
          BridgedTypePurpose.forArgument = BridgedTypePurpose.forArgument →
          getLoweredBridgedType fullContext
              (AbstractionPattern.clangPattern (ClangType.otherClang 0)) Ty.stringTy
              SILFunctionTypeRepresentation.objcMethod BridgedTypePurpose.forArgument
            = some Ty.nsStringTy)) :=
  ⟨⟨rfl, rfl⟩, coreMapper_hint_is_forResult fullContext
    (AbstractionPattern.clangPattern (ClangType.otherClang 0)) Ty.stringTy
    SILFunctionTypeRepresentation.objcMethod BridgedTypePurpose.forArgument rfl rfl⟩

/-- C3: under every foreign representation, bridging `Optional<V>` resolves
`V` through the leaf mapper with a false collections-are-optional hint and
re-wraps the result in the same optional flavor (failure of the inner
resolution failing the whole lookup, since `Option.map` preserves `none`);
and the inner resolution never introduces a new optional layer, so the result
is never `Optional<Optional<bridge(V)>>`. -/
theorem optional_transparency (C : ASTContextInfo)
    (pattern : AbstractionPattern) (rep : SILFunctionTypeRepresentation)
    (purpose : BridgedTypePurpose) (k : OptionalTypeKind) (V : Ty)
    (hrep : needsBridging rep = true) :
    getLoweredBridgedType C pattern (.optionalTy k V) rep purpose
      = (getLoweredCBridgedType C V pattern.getClangTypeOrNull false).map
          (Ty.optionalTy k)
    ∧ (∀ W, getLoweredCBridgedType C V pattern.getClangTypeOrNull false = some W →
        V.getAnyOptionalObjectType = none → W.getAnyOptionalObjectType = none) := by
  refine ⟨getLoweredBridgedType_foreign_optional C pattern k V rep purpose hrep, ?_⟩
  intro W hW hV
  rcases leaf_output_shape C pattern.getClangTypeOrNull false V W hW with
    heq | ⟨B, hB, hcase⟩ | heq | ⟨inst, _, heq⟩ | ⟨inst, _, heq⟩ | ⟨fnIn, fnOut, heq⟩
  · rw [heq]; exact hV
  · rcases hcase with heq | ⟨hbc, _⟩
    · rcases hB with rfl | rfl | rfl | rfl <;> rw [heq] <;> rfl
    · simp at hbc
  · rw [heq]; rfl
  · rw [heq]; rfl
  · rw [heq]; rfl
  · rw [heq]; rfl

theorem optional_transparency_witness :
    needsBridging SILFunctionTypeRepresentation.block = true
    ∧ (getLoweredBridgedType fullContext
          (AbstractionPattern.clangPattern (ClangType.otherClang 0))
          (Ty.optionalTy OptionalTypeKind.optional (Ty.arrayTy Ty.boolTy))
          SILFunctionTypeRepresentation.block BridgedTypePurpose.forArgument
        = (getLoweredCBridgedType fullContext (Ty.arrayTy Ty.boolTy)
            (AbstractionPattern.clangPattern (ClangType.otherClang 0)).getClangTypeOrNull
            false).map (Ty.optionalTy OptionalTypeKind.optional)
      ∧ (∀ W, getLoweredCBridgedType fullContext (Ty.arrayTy Ty.boolTy)
            (AbstractionPattern.clangPattern (ClangType.otherClang 0)).getClangTypeOrNull
            false = some W →
          (Ty.arrayTy Ty.boolTy).getAnyOptionalObjectType = none →
          W.getAnyOptionalObjectType = none)) :=
  ⟨rfl, optional_transparency fullContext
    (AbstractionPattern.clangPattern (ClangType.otherClang 0))
    SILFunctionTypeRepresentation.block BridgedTypePurpose.forArgument
    OptionalTypeKind.optional (Ty.arrayTy Ty.boolTy) rfl⟩

/-- C9: `getBridgedResultType` performs no tuple decomposition — a
structurally-tuple result is handed to the core mapper as one unit, where no
leaf rule matches it, so it passes through unchanged — and it selects purpose
`ForNonOptionalResult` exactly when `suppressOptional` is set, so the leaf
hint is `!suppressOptional`; that flag alone decides whether a bridged
string/collection result is wrapped in an optional, as the native-string
instance shows. -/
theorem result_no_tuple_decomposition (C : ASTContextInfo)
    (rep : SILFunctionTypeRepresentation) (pattern : AbstractionPattern)
    (elts : TyList) (t : Ty) (suppressOptional : Bool)
    (hrep : needsBridging rep = true) :
    getBridgedResultType C rep pattern (.tupleTy elts) suppressOptional
      = Except.ok (.tupleTy elts)
    ∧ (t.getAnyOptionalObjectType = none →
        getBridgedResultType C rep pattern t suppressOptional
          = match getLoweredCBridgedType C t pattern.getClangTypeOrNull
                (!suppressOptional) with
            | none => Except.error (.couldNotFindBridgeType t)
            | some ty => Except.ok ty)
    ∧ (C.hasStringType = true → C.hasNSStringType = true →
        pattern.getClangTypeOrNull.isSome = true →
        getBridgedResultType C rep pattern Ty.stringTy suppressOptional
          = Except.ok (if suppressOptional then Ty.nsStringTy
              else Ty.optionalTy OptionalTypeKind.optional Ty.nsStringTy)) := by
  have hpurp : decide ((if suppressOptional then BridgedTypePurpose.forNonOptionalResult
      else BridgedTypePurpose.forResult) = BridgedTypePurpose.forResult)
      = !suppressOptional := by
    cases suppressOptional <;> rfl
  refine ⟨?_, ?_, ?_⟩
  · unfold getBridgedResultType
    rw [getLoweredBridgedType_foreign_nonOptional C pattern (Ty.tupleTy elts) rep
      _ hrep rfl, leaf_fix_tuple]
  · intro hopt
    unfold getBridgedResultType
    rw [getLoweredBridgedType_foreign_nonOptional C pattern t rep _ hrep hopt, hpurp]
  · intro hS hNS hct
    unfold getBridgedResultType
    rw [getLoweredBridgedType_foreign_nonOptional C pattern Ty.stringTy rep _ hrep rfl,
      hpurp]
    cases hsup : suppressOptional <;>
      simp [getLoweredCBridgedType, typeIsEqual_getString, hS,
        wrapIfCollectionsOptional, getNSStringType, hNS, hct]

theorem result_no_tuple_decomposition_witness :
    needsBridging SILFunctionTypeRepresentation.objcMethod = true
    ∧ (getBridgedResultType fullContext SILFunctionTypeRepresentation.objcMethod
          (AbstractionPattern.clangPattern (ClangType.otherClang 0))
          (Ty.tupleTy (TyList.cons none Ty.stringTy TyList.nil)) false
        = Except.ok (Ty.tupleTy (TyList.cons none Ty.stringTy TyList.nil))
      ∧ (Ty.stringTy.getAnyOptionalObjectType = none →
          getBridgedResultType fullContext SILFunctionTypeRepresentation.objcMethod
              (AbstractionPattern.clangPattern (ClangType.otherClang 0))
              Ty.stringTy false
            = match getLoweredCBridgedType fullContext Ty.stringTy
                  (AbstractionPattern.clangPattern
                    (ClangType.otherClang 0)).getClangTypeOrNull (!false) with
              | none => Except.error (.couldNotFindBridgeType Ty.stringTy)
              | some ty => Except.ok ty)
      ∧ (fullContext.hasStringType = true → fullContext.hasNSStringType = true →
          (AbstractionPattern.clangPattern
            (ClangType.otherClang 0)).getClangTypeOrNull.isSome = true →
          getBridgedResultType fullContext SILFunctionTypeRepresentation.objcMethod
              (AbstractionPattern.clangPattern (ClangType.otherClang 0))
              Ty.stringTy false
            = Except.ok (if false then Ty.nsStringTy
                else Ty.optionalTy OptionalTypeKind.optional Ty.nsStringTy))) :=
  ⟨rfl, result_no_tuple_decomposition fullContext
    SILFunctionTypeRepresentation.objcMethod
    (AbstractionPattern.clangPattern (ClangType.otherClang 0))
    (TyList.cons none Ty.stringTy TyList.nil) Ty.stringTy false rfl⟩

theorem bridgeTupleElements_ok_spec (C : ASTContextInfo)
    (rep : SILFunctionTypeRepresentation) (pattern : AbstractionPattern) :
    ∀ (elts : TyList) (i : Nat) (fields : TyList) (changed : Bool),
      bridgeTupleElements C rep pattern i elts = Except.ok (fields, changed) →
      fields.length = elts.length
      ∧ (∀ j label ty, elts.get? j = some (label, ty) →
          ∃ ty', fields.get? j = some (label, ty')
            ∧ getLoweredBridgedType C (pattern.getTupleElementType (i + j)) ty rep
                .forArgument = some ty')
      ∧ (changed = false → fields = elts)
      ∧ (changed = true → fields ≠ elts)
  | .nil, i, fields, changed => by
    intro h
    simp only [bridgeTupleElements, Except.ok.injEq, Prod.mk.injEq] at h
    obtain ⟨h1, h2⟩ := h
    subst h1
    subst h2
    refine ⟨rfl, ?_, fun _ => rfl, fun hch => by simp at hch⟩
    intro j label ty hj
    simp [TyList.get?] at hj
  | .cons label t rest, i, fields, changed => by
    intro h
    unfold bridgeTupleElements at h
    cases hg : getLoweredBridgedType C (pattern.getTupleElementType i) t rep
        .forArgument with
    | none => rw [hg] at h; exact absurd h (by simp)
    | some canBridged =>
      rw [hg] at h
      cases hbte : bridgeTupleElements C rep pattern (i + 1) rest with
      | error e => rw [hbte] at h; exact absurd h (by simp)
      | ok pr =>
        obtain ⟨tail, changedRest⟩ := pr
        rw [hbte] at h
        dsimp only at h
        obtain ⟨hlen, hget, hunch, hch⟩ :=
          bridgeTupleElements_ok_spec C rep pattern rest (i + 1) tail changedRest hbte
        by_cases hceq : canBridged = t
        · rw [if_pos hceq] at h
          simp only [Except.ok.injEq, Prod.mk.injEq] at h
          obtain ⟨h1, h2⟩ := h
          subst h1
          subst h2
          refine ⟨by simp [TyList.length, hlen], ?_, ?_, ?_⟩
          · intro j label' ty' hj
            cases j with
            | zero =>
              simp only [TyList.get?, Option.some.injEq, Prod.mk.injEq] at hj
              obtain ⟨rfl, rfl⟩ := hj
              refine ⟨t, by simp [TyList.get?], ?_⟩
              rw [Nat.add_zero]
              rw [hg, hceq]
            | succ j' =>
              simp only [TyList.get?] at hj ⊢
              have hrec := hget j' label' ty' hj
              rw [show i + 1 + j' = i + (j' + 1) from by omega] at hrec
              exact hrec
          · intro hcf
            rw [hunch hcf]
          · intro hct
            have := hch hct
            simp [TyList.cons.injEq, this]
        · rw [if_neg hceq] at h
          simp only [Except.ok.injEq, Prod.mk.injEq] at h
          obtain ⟨h1, h2⟩ := h
          subst h1
          subst h2
          refine ⟨by simp [TyList.length, hlen], ?_, ?_, ?_⟩
          · intro j label' ty' hj
            cases j with
            | zero =>
              simp only [TyList.get?, Option.some.injEq, Prod.mk.injEq] at hj
              obtain ⟨rfl, rfl⟩ := hj
              exact ⟨canBridged, by simp [TyList.get?], by rw [Nat.add_zero]; exact hg⟩
            | succ j' =>
              simp only [TyList.get?] at hj ⊢
              have hrec := hget j' label' ty' hj
              rw [show i + 1 + j' = i + (j' + 1) from by omega] at hrec
              exact hrec
          · intro hcf
            simp at hcf
          · intro _
            simp [TyList.cons.injEq, hceq]

theorem bridgeTupleElements_error_spec (C : ASTContextInfo)
    (rep : SILFunctionTypeRepresentation) (pattern : AbstractionPattern) :
    ∀ (elts : TyList) (i : Nat) (e : BridgeError),
      bridgeTupleElements C rep pattern i elts = Except.error e →
      ∃ j label ty, elts.get? j = some (label, ty)
        ∧ getLoweredBridgedType C (pattern.getTupleElementType (i + j)) ty rep
            .forArgument = none
        ∧ e = .couldNotFindBridgeType ty
  | .nil, i, e => by
    intro h
    simp [bridgeTupleElements] at h
  | .cons label t rest, i, e => by
    intro h
    unfold bridgeTupleElements at h
    cases hg : getLoweredBridgedType C (pattern.getTupleElementType i) t rep
        .forArgument with
    | none =>
      rw [hg] at h
      simp only [Except.error.injEq] at h
      refine ⟨0, label, t, by simp [TyList.get?], ?_, h.symm⟩
      rw [Nat.add_zero]
      exact hg
    | some canBridged =>
      rw [hg] at h
      cases hbte : bridgeTupleElements C rep pattern (i + 1) rest with
      | error e₂ =>
        rw [hbte] at h
        simp only [Except.error.injEq] at h
        subst h
        obtain ⟨j, label₂, ty₂, hj, hnone, he⟩ :=
          bridgeTupleElements_error_spec C rep pattern rest (i + 1) e₂ hbte
        refine ⟨j + 1, label₂, ty₂, by simpa [TyList.get?] using hj, ?_, he⟩
        rw [show i + (j + 1) = i + 1 + j from by omega]
        exact hnone
      | ok pr =>
        obtain ⟨tail, changedRest⟩ := pr
        rw [hbte] at h
        dsimp only at h
        by_cases hceq : canBridged = t
        · rw [if_pos hceq] at h
          exact absurd h (by simp)
        · rw [if_neg hceq] at h
          exact absurd h (by simp)

theorem getBridgedInputType_not_tuple (C : ASTContextInfo)
    (rep : SILFunctionTypeRepresentation) (pattern : AbstractionPattern)
    (input : Ty) (h : ∀ elts, input ≠ Ty.tupleTy elts) :
    getBridgedInputType C rep pattern input
      = match getLoweredBridgedType C pattern input rep .forArgument with
        | none => Except.error (.couldNotFindBridgeType input)
        | some loweredBridgedType => Except.ok loweredBridgedType := by
  cases input <;> first | rfl | exact absurd rfl (h _)

/-- C2: for every tuple input, a successful bridge returns a tuple of the
same length whose element labels and order are preserved, with each element's
type the bridged type of the corresponding input element; when bridging
changes no element the returned value is the input tuple itself. -/
theorem bridgeInputType_tuple_minimality (C : ASTContextInfo)
    (rep : SILFunctionTypeRepresentation) (pattern : AbstractionPattern)
    (elts : TyList) (out : Ty)
    (h : getBridgedInputType C rep pattern (Ty.tupleTy elts) = Except.ok out) :
    ∃ fields : TyList,
      out = Ty.tupleTy fields
      ∧ fields.length = elts.length
      ∧ (∀ j label ty, elts.get? j = some (label, ty) →
          ∃ ty', fields.get? j = some (label, ty')
            ∧ getLoweredBridgedType C (pattern.getTupleElementType j) ty rep
                .forArgument = some ty')
      ∧ ((∀ j label ty, elts.get? j = some (label, ty) →
            getLoweredBridgedType C (pattern.getTupleElementType j) ty rep
              .forArgument = some ty)
          → out = Ty.tupleTy elts) := by
  unfold getBridgedInputType at h
  dsimp only at h
  cases hbte : bridgeTupleElements C rep pattern 0 elts with
  | error e => rw [hbte] at h; exact absurd h (by simp)
  | ok pr =>
    obtain ⟨fields, changed⟩ := pr
    rw [hbte] at h
    dsimp only at h
    obtain ⟨hlen, hget, hunch, hch⟩ :=
      bridgeTupleElements_ok_spec C rep pattern elts 0 fields changed hbte
    simp only [Nat.zero_add] at hget
    have hfields_eq : (∀ j label ty, elts.get? j = some (label, ty) →
        getLoweredBridgedType C (pattern.getTupleElementType j) ty rep
          .forArgument = some ty) → fields = elts := by
      intro hall
      apply TyList.ext_of_get?
      intro j
      cases hj : elts.get? j with
      | some labeled =>
        obtain ⟨label, ty⟩ := labeled
        obtain ⟨ty', hf, hbr⟩ := hget j label ty hj
        have hsame : some ty' = some ty := by rw [← hbr, hall j label ty hj]
        simp only [Option.some.injEq] at hsame
        rw [hf, hsame]
      | none =>
        have hje : elts.length ≤ j := (TyList.get?_eq_none_iff elts j).mp hj
        have hf : fields.get? j = none :=
          (TyList.get?_eq_none_iff fields j).mpr (by rw [hlen]; exact hje)
        rw [hf]
    cases changed with
    | true =>
      rw [if_pos rfl] at h
      simp only [Except.ok.injEq] at h
      subst h
      refine ⟨fields, rfl, hlen, hget, ?_⟩
      intro hall
      rw [hfields_eq hall]
    | false =>
      rw [if_neg (by simp)] at h
      simp only [Except.ok.injEq] at h
      subst h
      have hfe := hunch rfl
      subst hfe
      exact ⟨fields, rfl, hlen, hget, fun _ => rfl⟩

theorem bridgeInputType_tuple_minimality_witness :
    getBridgedInputType fullContext SILFunctionTypeRepresentation.objcMethod
        (AbstractionPattern.tuplePattern
          [AbstractionPattern.clangPattern (ClangType.otherClang 1),
           AbstractionPattern.clangPattern (ClangType.otherClang 2)])
        (Ty.tupleTy (TyList.cons (some 7) Ty.stringTy
          (TyList.cons none (Ty.classTy 3) TyList.nil)))
      = Except.ok (Ty.tupleTy (TyList.cons (some 7) Ty.nsStringTy
          (TyList.cons none (Ty.classTy 3) TyList.nil)))
    ∧ ∃ fields : TyList,
      Ty.tupleTy (TyList.cons (some 7) Ty.nsStringTy
          (TyList.cons none (Ty.classTy 3) TyList.nil)) = Ty.tupleTy fields
      ∧ fields.length = (TyList.cons (some 7) Ty.stringTy
          (TyList.cons none (Ty.classTy 3) TyList.nil)).length
      ∧ (∀ j label ty,
          (TyList.cons (some 7) Ty.stringTy
            (TyList.cons none (Ty.classTy 3) TyList.nil)).get? j = some (label, ty) →
          ∃ ty', fields.get? j = some (label, ty')
            ∧ getLoweredBridgedType fullContext
                ((AbstractionPattern.tuplePattern
                  [AbstractionPattern.clangPattern (ClangType.otherClang 1),
                   AbstractionPattern.clangPattern (ClangType.otherClang 2)]).getTupleElementType j)
                ty SILFunctionTypeRepresentation.objcMethod
                .forArgument = some ty')
      ∧ ((∀ j label ty,
            (TyList.cons (some 7) Ty.stringTy
              (TyList.cons none (Ty.classTy 3) TyList.nil)).get? j = some (label, ty) →
            getLoweredBridgedType fullContext
                ((AbstractionPattern.tuplePattern
                  [AbstractionPattern.clangPattern (ClangType.otherClang 1),
                   AbstractionPattern.clangPattern (ClangType.otherClang 2)]).getTupleElementType j)
                ty SILFunctionTypeRepresentation.objcMethod
                .forArgument = some ty)
          → Ty.tupleTy (TyList.cons (some 7) Ty.nsStringTy
              (TyList.cons none (Ty.classTy 3) TyList.nil))
            = Ty.tupleTy (TyList.cons (some 7) Ty.stringTy
                (TyList.cons none (Ty.classTy 3) TyList.nil))) :=
  ⟨rfl, bridgeInputType_tuple_minimality fullContext
    SILFunctionTypeRepresentation.objcMethod
    (AbstractionPattern.tuplePattern
      [AbstractionPattern.clangPattern (ClangType.otherClang 1),
       AbstractionPattern.clangPattern (ClangType.otherClang 2)])
    (TyList.cons (some 7) Ty.stringTy (TyList.cons none (Ty.classTy 3) TyList.nil))
    (Ty.tupleTy (TyList.cons (some 7) Ty.nsStringTy
      (TyList.cons none (Ty.classTy 3) TyList.nil))) rfl⟩

/-- C8: the leaf and core mappers only return absence or a concrete type; the
entry points fail exactly when the mapping they receive is absent, and the one
diagnostic they emit before aborting names the offending type (for a tuple,
the first element with no bridged type). -/
theorem failure_only_at_entry (C : ASTContextInfo)
    (rep : SILFunctionTypeRepresentation) (pattern : AbstractionPattern)
    (input result : Ty) (suppressOptional : Bool) :
    (∀ e, getBridgedResultType C rep pattern result suppressOptional
        = Except.error e →
        getLoweredBridgedType C pattern result rep
            (if suppressOptional then .forNonOptionalResult else .forResult) = none
          ∧ e = .couldNotFindBridgeType result)
    ∧ (getLoweredBridgedType C pattern result rep
          (if suppressOptional then .forNonOptionalResult else .forResult) = none →
        getBridgedResultType C rep pattern result suppressOptional
          = Except.error (.couldNotFindBridgeType result))
    ∧ ((∀ elts, input ≠ Ty.tupleTy elts) →
        (∀ e, getBridgedInputType C rep pattern input = Except.error e →
            getLoweredBridgedType C pattern input rep .forArgument = none
              ∧ e = .couldNotFindBridgeType input)
        ∧ (getLoweredBridgedType C pattern input rep .forArgument = none →
            getBridgedInputType C rep pattern input
              = Except.error (.couldNotFindBridgeType input)))
    ∧ (∀ elts, input = Ty.tupleTy elts →
        ((∃ e, getBridgedInputType C rep pattern input = Except.error e)
          ↔ ∃ j label ty, elts.get? j = some (label, ty)
              ∧ getLoweredBridgedType C (pattern.getTupleElementType j) ty rep
                  .forArgument = none)
        ∧ (∀ e, getBridgedInputType C rep pattern input = Except.error e →
            ∃ j label ty, elts.get? j = some (label, ty)
              ∧ getLoweredBridgedType C (pattern.getTupleElementType j) ty rep
                  .forArgument = none
              ∧ e = .couldNotFindBridgeType ty)) := by
  refine ⟨?_, ?_, ?_, ?_⟩
  · intro e he
    unfold getBridgedResultType at he
    cases hg : getLoweredBridgedType C pattern result rep
        (if suppressOptional then .forNonOptionalResult else .forResult) with
    | none =>
      rw [hg] at he
      dsimp only at he
      simp only [Except.error.injEq] at he
      exact ⟨rfl, he.symm⟩
    | some ty =>
      rw [hg] at he
      exact absurd he (by simp)
  · intro hnone
    unfold getBridgedResultType
    rw [hnone]
  · intro hnt
    rw [getBridgedInputType_not_tuple C rep pattern input hnt]
    constructor
    · intro e he
      cases hg : getLoweredBridgedType C pattern input rep .forArgument with
      | none =>
        rw [hg] at he
        dsimp only at he
        simp only [Except.error.injEq] at he
        exact ⟨rfl, he.symm⟩
      | some b =>
        rw [hg] at he
        exact absurd he (by simp)
    · intro hnone
      rw [hnone]
  · intro elts hin
    subst hin
    have herr : ∀ e, getBridgedInputType C rep pattern (Ty.tupleTy elts)
        = Except.error e →
        ∃ j label ty, elts.get? j = some (label, ty)
          ∧ getLoweredBridgedType C (pattern.getTupleElementType j) ty rep
              .forArgument = none
          ∧ e = .couldNotFindBridgeType ty := by
      intro e he
      unfold getBridgedInputType at he
      dsimp only at he
      cases hbte : bridgeTupleElements C rep pattern 0 elts with
      | error e₂ =>
        rw [hbte] at he
        dsimp only at he
        simp only [Except.error.injEq] at he
        obtain ⟨j, label, ty, hj, hnone, hename⟩ :=
          bridgeTupleElements_error_spec C rep pattern elts 0 e₂ hbte
        rw [Nat.zero_add] at hnone
        exact ⟨j, label, ty, hj, hnone, by rw [← he]; exact hename⟩
      | ok pr =>
        obtain ⟨fields, changed⟩ := pr
        rw [hbte] at he
        dsimp only at he
        cases changed <;> simp at he
    refine ⟨⟨?_, ?_⟩, herr⟩
    · rintro ⟨e, he⟩
      obtain ⟨j, label, ty, hj, hnone, _⟩ := herr e he
      exact ⟨j, label, ty, hj, hnone⟩
    · rintro ⟨j, label, ty, hj, hnone⟩
      cases hres : getBridgedInputType C rep pattern (Ty.tupleTy elts) with
      | error e => exact ⟨e, rfl⟩
      | ok out =>
        exfalso
        unfold getBridgedInputType at hres
        dsimp only at hres
        cases hbte : bridgeTupleElements C rep pattern 0 elts with
        | error e₂ => rw [hbte] at hres; exact absurd hres (by simp)
        | ok pr =>
          obtain ⟨fields, changed⟩ := pr
          obtain ⟨_, hget, _, _⟩ :=
            bridgeTupleElements_ok_spec C rep pattern elts 0 fields changed hbte
          obtain ⟨ty', _, hbr⟩ := hget j label ty hj
          rw [Nat.zero_add] at hbr
          rw [hbr] at hnone
          exact Option.noConfusion hnone

/-- C7: bridging the result of bridging, under the same representation,
abstraction pattern and purpose, returns it unchanged. -/
theorem bridging_idempotent (C : ASTContextInfo) (pattern : AbstractionPattern)
    (t : Ty) (rep : SILFunctionTypeRepresentation)
    (purpose : BridgedTypePurpose) (t' : Ty)
    (h : getLoweredBridgedType C pattern t rep purpose = some t') :
    getLoweredBridgedType C pattern t' rep purpose = some t' := by
  by_cases hrep : needsBridging rep = true
  case neg =>
    have hn : needsBridging rep = false := by
      revert hrep; cases rep <;> simp [needsBridging]
    rw [getLoweredBridgedType_native C pattern t rep purpose hn] at h
    simp only [Option.some.injEq] at h
    subst h
    exact getLoweredBridgedType_native C pattern t rep purpose hn
  case pos =>
    cases hopt : t.getAnyOptionalObjectType with
    | some kv =>
      obtain ⟨k, V⟩ := kv
      have ht : t = .optionalTy k V := (getAnyOptionalObjectType_eq_some t k V).mp hopt
      subst ht
      rw [getLoweredBridgedType_foreign_optional C pattern k V rep purpose hrep] at h
      rw [Option.map_eq_some'] at h
      obtain ⟨W, hW, ht'⟩ := h
      subst ht'
      rw [getLoweredBridgedType_foreign_optional C pattern k W rep purpose hrep]
      have hfix : getLoweredCBridgedType C W pattern.getClangTypeOrNull false
          = some W := by
        rcases leaf_output_shape C pattern.getClangTypeOrNull false V W hW with
          rfl | ⟨B, hB, hcase⟩ | rfl | ⟨inst, hi, rfl⟩ | ⟨inst, hi, rfl⟩
            | ⟨fnIn, fnOut, rfl⟩
        · exact hW
        · rcases hcase with rfl | ⟨hbc, _⟩
          · rcases hB with rfl | rfl | rfl | rfl
            · exact leaf_fix_nsString C _ false
            · exact leaf_fix_nsArray C _ false
            · exact leaf_fix_nsDictionary C _ false
            · exact leaf_fix_nsSet C _ false
          · simp at hbc
        · exact leaf_fix_objcBool C _ false
        · exact leaf_fix_metatypeObjC C _ false inst hi
        · exact leaf_fix_existentialMetatypeObjC C _ false inst hi
        · exact leaf_fix_functionBlock C _ false fnIn fnOut
      rw [hfix]
      rfl
    | none =>
      rw [getLoweredBridgedType_foreign_nonOptional C pattern t rep purpose hrep hopt] at h
      rcases leaf_output_shape C pattern.getClangTypeOrNull
          (decide (purpose = BridgedTypePurpose.forResult)) t t' h with
        rfl | ⟨B, hB, hcase⟩ | rfl | ⟨inst, hi, rfl⟩ | ⟨inst, hi, rfl⟩
          | ⟨fnIn, fnOut, rfl⟩
      · rw [getLoweredBridgedType_foreign_nonOptional C pattern _ rep purpose hrep hopt]
        exact h
      · rcases hcase with rfl | ⟨hbc, rfl⟩
        · rcases hB with rfl | rfl | rfl | rfl
          · rw [getLoweredBridgedType_foreign_nonOptional C pattern Ty.nsStringTy rep
              purpose hrep rfl]
            exact leaf_fix_nsString C _ _
          · rw [getLoweredBridgedType_foreign_nonOptional C pattern Ty.nsArrayTy rep
              purpose hrep rfl]
            exact leaf_fix_nsArray C _ _
          · rw [getLoweredBridgedType_foreign_nonOptional C pattern Ty.nsDictionaryTy rep
              purpose hrep rfl]
            exact leaf_fix_nsDictionary C _ _
          · rw [getLoweredBridgedType_foreign_nonOptional C pattern Ty.nsSetTy rep
              purpose hrep rfl]
            exact leaf_fix_nsSet C _ _
        · rcases hB with rfl | rfl | rfl | rfl
          · rw [getLoweredBridgedType_foreign_optional C pattern OptionalTypeKind.optional
              Ty.nsStringTy rep purpose hrep, leaf_fix_nsString]
            rfl
          · rw [getLoweredBridgedType_foreign_optional C pattern OptionalTypeKind.optional
              Ty.nsArrayTy rep purpose hrep, leaf_fix_nsArray]
            rfl
          · rw [getLoweredBridgedType_foreign_optional C pattern OptionalTypeKind.optional
              Ty.nsDictionaryTy rep purpose hrep, leaf_fix_nsDictionary]
            rfl
          · rw [getLoweredBridgedType_foreign_optional C pattern OptionalTypeKind.optional
              Ty.nsSetTy rep purpose hrep, leaf_fix_nsSet]
            rfl
      · rw [getLoweredBridgedType_foreign_nonOptional C pattern Ty.objcBoolTy rep
          purpose hrep rfl]
        exact leaf_fix_objcBool C _ _
      · rw [getLoweredBridgedType_foreign_nonOptional C pattern
          (Ty.metatypeTy (some MetatypeRepresentation.objC) inst) rep purpose hrep rfl]
        exact leaf_fix_metatypeObjC C _ _ inst hi
      · rw [getLoweredBridgedType_foreign_nonOptional C pattern
          (Ty.existentialMetatypeTy (some MetatypeRepresentation.objC) inst) rep purpose
          hrep rfl]
        exact leaf_fix_existentialMetatypeObjC C _ _ inst hi
      · rw [getLoweredBridgedType_foreign_nonOptional C pattern
          (Ty.functionTy fnIn fnOut SILFunctionTypeRepresentation.block) rep purpose
          hrep rfl]
        exact leaf_fix_functionBlock C _ _ fnIn fnOut

theorem bridging_idempotent_witness :
    getLoweredBridgedType fullContext
        (AbstractionPattern.clangPattern (ClangType.otherClang 0)) Ty.stringTy
        SILFunctionTypeRepresentation.objcMethod BridgedTypePurpose.forResult
      = some (Ty.optionalTy OptionalTypeKind.optional Ty.nsStringTy)
    ∧ getLoweredBridgedType fullContext
        (AbstractionPattern.clangPattern (ClangType.otherClang 0))
        (Ty.optionalTy OptionalTypeKind.optional Ty.nsStringTy)
        SILFunctionTypeRepresentation.objcMethod BridgedTypePurpose.forResult
      = some (Ty.optionalTy OptionalTypeKind.optional Ty.nsStringTy) :=
  ⟨rfl, bridging_idempotent fullContext
    (AbstractionPattern.clangPattern (ClangType.otherClang 0)) Ty.stringTy
    SILFunctionTypeRepresentation.objcMethod BridgedTypePurpose.forResult
    (Ty.optionalTy OptionalTypeKind.optional Ty.nsStringTy) rfl⟩

end SILBridging
